import Mathlib

/-!
Verification of the Ecole observation-extraction core.

The repository excerpt contains the binding layer
(src/python/src/ecole/core/observation.cpp) and a test file for the SCIP
model wrapper.  The C++ implementation files of the extractor family
(libecole observation sources) are not part of the excerpt, so the
extractors are modelled from the specification (spec.md sections 3, 4
and 6); the binding file is the authority for the constructor signatures
and the exposed operations.

Floating-point feature values are embedded as an inductive type that
separates the not-a-number sentinel from ordinary rational values, since
the specification uses NaN purely as an "not applicable" marker.
-/

namespace Ecole

/-- Feature value: either the not-a-number sentinel used for "not
applicable" entries, or an ordinary numeric value. -/
inductive FVal where
  | nan : FVal
  | val : ℚ → FVal
deriving DecidableEq, Repr

/-- Modelled from the spec: the static, problem-structural part of the
solver state visible through the narrow query interface of spec section 6
(variable list with bounds and objective coefficients, constraint list
with bias and coefficient rows).  The extractor implementation files are
absent from the excerpt, so this is the interface they consume. -/
structure ProblemData where
  num_variables : Nat
  num_constraints : Nat
  coeff : Nat → Nat → ℚ
  obj : Nat → ℚ
  rhs : Nat → ℚ
  lb : Nat → Option ℚ
  ub : Nat → Option ℚ

/-- Modelled from the spec: the dynamic, per-search-node part of the
solver state (LP solution values, candidate sets, strong-branching
simulation results, pseudocosts, duals, node depth). -/
structure DynamicState where
  lp_candidates : List Nat
  pseudo_candidates : List Nat
  sb_down_bound : Nat → ℚ
  sb_up_bound : Nat → ℚ
  pseudocost : Nat → ℚ
  lp_value : Nat → ℚ
  dual : Nat → ℚ
  tight : Nat → Bool
  depth : Nat

/-- Modelled from the spec: a solver model handle, i.e. the read-only
view of solver state passed into every extractor operation. -/
structure ScipModel where
  prob : ProblemData
  dyn : DynamicState

/-- Sparse matrix in the coordinate format (spec section 4.1 and the
coo_matrix binding): parallel arrays of non-zero values and of their
(row, column) indices, plus the dense shape. -/
structure coo_matrix where
  values : List ℚ
  indices : List (Nat × Nat)
  shape : Nat × Nat
deriving DecidableEq, Repr

/-- Number of non-zero entries stored in the sparse matrix. -/
def coo_matrix.nnz (self : coo_matrix) : Nat := self.values.length

/-- Bipartite graph observation (NodeBipartiteObs binding): variable
feature rows, constraint feature rows, and the constraint matrix as a
sparse coordinate matrix with rows for constraints and columns for
variables. -/
structure NodeBipartiteObs where
  column_features : List (List ℚ)
  row_features : List (List ℚ)
  edge_features : coo_matrix
deriving DecidableEq, Repr

/-- Modelled from the spec: the (constraint, variable) index pairs with a
non-zero coefficient, enumerated constraint-major. -/
def edgeIndices (p : ProblemData) : List (Nat × Nat) :=
  (List.range p.num_constraints).flatMap fun i =>
    (List.range p.num_variables).filterMap fun j =>
      if p.coeff i j ≠ 0 then some (i, j) else none

/-- Modelled from the spec: per-variable feature vector of the bipartite
observation (bound indicators, objective coefficient, LP solution
value). -/
def columnFeatures (m : ScipModel) (j : Nat) : List ℚ :=
  [if (m.prob.lb j).isSome then 1 else 0,
   if (m.prob.ub j).isSome then 1 else 0,
   m.prob.obj j,
   m.dyn.lp_value j]

/-- Modelled from the spec: per-constraint feature vector of the
bipartite observation (bias, tightness indicator, dual value). -/
def rowFeatures (m : ScipModel) (i : Nat) : List ℚ :=
  [m.prob.rhs i, if m.dyn.tight i then 1 else 0, m.dyn.dual i]

/-- NodeBipartite extractor.  Its reset hook caches structural data not
expected to change during an episode (binding docstring). -/
structure NodeBipartite where
  cache : Option ProblemData

/-- Default constructor of NodeBipartite (py init with no argument). -/
def NodeBipartite.init : NodeBipartite := ⟨none⟩

/-- Modelled from the spec: cache the invariant structural data at
episode start. -/
def NodeBipartite.before_reset (self : NodeBipartite) (m : ScipModel) : NodeBipartite :=
  ⟨some m.prob⟩

/-- Modelled from the spec: build the bipartite observation from the
current solver state.  Edge set is all (constraint, variable) pairs with
non-zero coefficient; the coefficient is the edge feature; the sparse
matrix shape is (number of constraints, number of variables). -/
def NodeBipartite.buildObs (m : ScipModel) : NodeBipartiteObs where
  column_features := (List.range m.prob.num_variables).map (columnFeatures m)
  row_features := (List.range m.prob.num_constraints).map (rowFeatures m)
  edge_features :=
    { values := (edgeIndices m.prob).map fun e => m.prob.coeff e.1 e.2
      indices := edgeIndices m.prob
      shape := (m.prob.num_constraints, m.prob.num_variables) }

/-- Modelled from the spec: extraction returns an absent observation when
the search is done, and otherwise a freshly built observation value; the
extractor state is returned unchanged. -/
def NodeBipartite.extract (self : NodeBipartite) (m : ScipModel) (done : Bool) :
    Option NodeBipartiteObs × NodeBipartite :=
  if done then (none, self) else (some (NodeBipartite.buildObs m), self)

/-- StrongBranchingScores extractor.  Per the binding, its constructor
takes exactly one boolean selecting pseudo candidates (true) versus LP
candidates (false). -/
structure StrongBranchingScores where
  pseudo_candidates : Bool
deriving DecidableEq, Repr

/-- Constructor of StrongBranchingScores as bound in observation.cpp:
one argument pseudo_candidates with default value true; passing none
models omitting the argument. -/
def StrongBranchingScores.init (pc : Option Bool) : StrongBranchingScores :=
  ⟨pc.getD true⟩

/-- Candidate universe selected by the constructor flag. -/
def StrongBranchingScores.candidates (self : StrongBranchingScores) (m : ScipModel) :
    List Nat :=
  if self.pseudo_candidates then m.dyn.pseudo_candidates else m.dyn.lp_candidates

/-- Modelled from the spec: the strong branching score of a variable is
the worse (minimum) of the bound improvements of the down and up
branches obtained by the solver-internal simulation primitive. -/
def sbScore (m : ScipModel) (j : Nat) : ℚ :=
  min (m.dyn.sb_down_bound j) (m.dyn.sb_up_bound j)

/-- Spec section 4.4: the reset hook of StrongBranchingScores does
nothing (no cacheable static state). -/
def StrongBranchingScores.before_reset (self : StrongBranchingScores) (m : ScipModel) :
    StrongBranchingScores :=
  self

/-- Modelled from the spec: absent observation when done; otherwise an
array with one entry per variable of the problem, holding the strong
branching score for candidates and the NaN sentinel elsewhere. -/
def StrongBranchingScores.extract (self : StrongBranchingScores) (m : ScipModel)
    (done : Bool) : Option (List FVal) × StrongBranchingScores :=
  if done then (none, self)
  else
    (some ((List.range m.prob.num_variables).map fun j =>
      if j ∈ self.candidates m then FVal.val (sbScore m j) else FVal.nan),
     self)

/-- Pseudocosts extractor.  Its constructor takes no parameters. -/
structure Pseudocosts where
deriving DecidableEq, Repr

/-- Constructor of Pseudocosts (py init with no argument). -/
def Pseudocosts.init : Pseudocosts := ⟨⟩

/-- Spec section 4.5: the reset hook of Pseudocosts does nothing. -/
def Pseudocosts.before_reset (self : Pseudocosts) (m : ScipModel) : Pseudocosts :=
  self

/-- Modelled from the spec: absent observation when done; otherwise an
array with one entry per variable of the problem, holding the pseudocost
for LP-fractional candidates and the NaN sentinel elsewhere. -/
def Pseudocosts.extract (self : Pseudocosts) (m : ScipModel) (done : Bool) :
    Option (List FVal) × Pseudocosts :=
  if done then (none, self)
  else
    (some ((List.range m.prob.num_variables).map fun j =>
      if j ∈ m.dyn.lp_candidates then FVal.val (m.dyn.pseudocost j) else FVal.nan),
     self)

/-- Number of static (problem-structural) feature columns of the
Khalil2016 observation in this model. -/
def khalilNumStatic : Nat := 2

/-- Modelled from the spec: static structural features of a variable for
Khalil2016 (objective coefficient and the number of constraints the
variable appears in), depending only on the problem structure. -/
def khalilStatic (p : ProblemData) (j : Nat) : List ℚ :=
  [p.obj j,
   (((List.range p.num_constraints).filter fun i => p.coeff i j ≠ 0).length : ℚ)]

/-- Modelled from the spec: dynamic features of a variable for
Khalil2016 (current LP solution value and node depth). -/
def khalilDynamic (m : ScipModel) (j : Nat) : List ℚ :=
  [m.dyn.lp_value j, (m.dyn.depth : ℚ)]

/-- Modelled from the spec: the pseudo branching candidates of the
current node, ordered by variable index ascending. -/
def khalilCandidates (m : ScipModel) : List Nat :=
  (List.range m.prob.num_variables).filter fun j => j ∈ m.dyn.pseudo_candidates

/-- Khalil2016 extractor state: the per-variable static features cached
by the reset hook, absent before the first episode. -/
structure Khalil2016 where
  static_cache : Option (Nat → List ℚ)

/-- Constructor of Khalil2016 (py init with no argument). -/
def Khalil2016.init : Khalil2016 := ⟨none⟩

/-- Spec section 4.6: the reset hook computes and caches the static
structural features for every variable. -/
def Khalil2016.before_reset (self : Khalil2016) (m : ScipModel) : Khalil2016 :=
  ⟨some fun j => khalilStatic m.prob j⟩

/-- Modelled from the spec: absent observation when done; otherwise one
row per candidate (ascending), each row the cached static features of the
variable followed by its dynamic features. -/
def Khalil2016.extract (self : Khalil2016) (m : ScipModel) (done : Bool) :
    Option (List (List ℚ)) × Khalil2016 :=
  if done then (none, self)
  else
    let stat := self.static_cache.getD fun j => khalilStatic m.prob j
    (some ((khalilCandidates m).map fun j => stat j ++ khalilDynamic m j), self)

/-- Nothing extractor: no configuration, no state. -/
structure Nothing where
deriving DecidableEq, Repr

/-- Constructor of Nothing (py init with no argument). -/
def Nothing.init : Nothing := ⟨⟩

/-- Spec section 4.7: the reset hook of Nothing does nothing. -/
def Nothing.before_reset (self : Nothing) (m : ScipModel) : Nothing :=
  self

/-- Spec section 4.7: extraction always returns the absent observation,
for every model handle and every value of done. -/
def Nothing.extract (self : Nothing) (m : ScipModel) (done : Bool) :
    Option Unit × Nothing :=
  (none, self)

/-- Number of non-zero coefficients of the constraint matrix: the sum
over the constraints of the number of variables appearing in each with a
non-zero coefficient. -/
def numNonzeroCoeffs (p : ProblemData) : Nat :=
  ((List.range p.num_constraints).map fun i =>
    ((List.range p.num_variables).filter fun j => p.coeff i j ≠ 0).length).sum

/-- Concrete problem used to instantiate the theorems: two variables and
one constraint with coefficients 1 and 2. -/
def exProb : ProblemData where
  num_variables := 2
  num_constraints := 1
  coeff := fun i j => if i = 0 then (if j = 0 then 1 else if j = 1 then 2 else 0) else 0
  obj := fun j => if j = 0 then 3 else 1
  rhs := fun _ => 4
  lb := fun _ => some 0
  ub := fun _ => none

/-- Concrete dynamic solver state used to instantiate the theorems. -/
def exDyn : DynamicState where
  lp_candidates := [1]
  pseudo_candidates := [0]
  sb_down_bound := fun _ => 1
  sb_up_bound := fun _ => 2
  pseudocost := fun j => (j : ℚ)
  lp_value := fun _ => 1 / 2
  dual := fun _ => 0
  tight := fun _ => false
  depth := 0

/-- Concrete model handle used to instantiate the theorems. -/
def exModel : ScipModel := ⟨exProb, exDyn⟩

theorem length_filterMap_if (l : List Nat) (p : Nat → Prop) [DecidablePred p]
    (g : Nat → Nat × Nat) :
    (l.filterMap fun j => if p j then some (g j) else none).length
      = (l.filter fun j => p j).length := by
  induction l with
  | nil => rfl
  | cons a l ih =>
    by_cases h : p a <;> simp [List.filterMap_cons, List.filter_cons, h, ih]

theorem edgeIndices_length (p : ProblemData) :
    (edgeIndices p).length = numNonzeroCoeffs p := by
  unfold edgeIndices numNonzeroCoeffs
  rw [List.flatMap, List.length_flatten, List.map_map]
  refine congrArg List.sum (List.map_congr_left fun i _ => ?_)
  exact length_filterMap_if _ _ _

/-- Claim C1: for every extractor variant (NodeBipartite,
StrongBranchingScores, Pseudocosts, Khalil2016, Nothing) and every model
handle, extraction with done true returns the documented absent
observation and leaves the extractor state unchanged, regardless of the
solver state and without consulting it. -/
theorem extract_done_absent (sN : Nothing) (sB : NodeBipartite)
    (sS : StrongBranchingScores) (sP : Pseudocosts) (sK : Khalil2016)
    (m : ScipModel) :
    sN.extract m true = (none, sN)
    ∧ sB.extract m true = (none, sB)
    ∧ sS.extract m true = (none, sS)
    ∧ sP.extract m true = (none, sP)
    ∧ sK.extract m true = (none, sK) :=
  ⟨rfl, rfl, rfl, rfl, rfl⟩

/-- Claim C2: for every model, the arrays returned by the
StrongBranchingScores and Pseudocosts extractors when done is false have
length equal to the total number of variables of the problem, and every
entry whose index lies outside the active candidate set is the NaN
sentinel. -/
theorem scores_length_and_nan (sS : StrongBranchingScores) (sP : Pseudocosts)
    (m : ScipModel) (sc pc : List FVal)
    (hs : (sS.extract m false).1 = some sc)
    (hp : (sP.extract m false).1 = some pc) :
    sc.length = m.prob.num_variables
    ∧ pc.length = m.prob.num_variables
    ∧ (∀ j, ∀ hj : j < sc.length, j ∉ sS.candidates m →
        sc.get ⟨j, hj⟩ = FVal.nan)
    ∧ (∀ j, ∀ hj : j < pc.length, j ∉ m.dyn.lp_candidates →
        pc.get ⟨j, hj⟩ = FVal.nan) := by
  simp only [StrongBranchingScores.extract, if_neg Bool.false_ne_true,
    Option.some.injEq] at hs
  simp only [Pseudocosts.extract, if_neg Bool.false_ne_true,
    Option.some.injEq] at hp
  subst hs
  subst hp
  refine ⟨by simp, by simp, ?_, ?_⟩
  · intro j hj hmem
    rw [List.get_eq_getElem]
    simp only [List.getElem_map, List.getElem_range]
    exact if_neg hmem
  · intro j hj hmem
    rw [List.get_eq_getElem]
    simp only [List.getElem_map, List.getElem_range]
    exact if_neg hmem

/-- Witness for claim C2 at the concrete model. -/
theorem scores_length_and_nan_witness :
    (((StrongBranchingScores.init none).extract exModel false).1
        = some [FVal.val 1, FVal.nan]
      ∧ (Pseudocosts.init.extract exModel false).1 = some [FVal.nan, FVal.val 1])
    ∧ ([FVal.val 1, FVal.nan].length = exModel.prob.num_variables
      ∧ [FVal.nan, FVal.val 1].length = exModel.prob.num_variables
      ∧ (∀ j, ∀ hj : j < ([FVal.val 1, FVal.nan] : List FVal).length,
          j ∉ (StrongBranchingScores.init none).candidates exModel →
          ([FVal.val 1, FVal.nan] : List FVal).get ⟨j, hj⟩ = FVal.nan)
      ∧ (∀ j, ∀ hj : j < ([FVal.nan, FVal.val 1] : List FVal).length,
          j ∉ exModel.dyn.lp_candidates →
          ([FVal.nan, FVal.val 1] : List FVal).get ⟨j, hj⟩ = FVal.nan)) :=
  ⟨⟨by decide, by decide⟩,
    scores_length_and_nan (StrongBranchingScores.init none) Pseudocosts.init
      exModel _ _ (by decide) (by decide)⟩

/-- Claim C3: for every problem instance, the observation returned by
NodeBipartite extraction has edge_features of shape (number of
constraints, number of variables), and its number of stored non-zeros
equals the number of non-zero coefficients of the constraint matrix. -/
theorem node_bipartite_shape_nnz (sB : NodeBipartite) (m : ScipModel)
    (obs : NodeBipartiteObs) (h : (sB.extract m false).1 = some obs) :
    obs.edge_features.shape = (m.prob.num_constraints, m.prob.num_variables)
    ∧ obs.edge_features.nnz = numNonzeroCoeffs m.prob := by
  simp only [NodeBipartite.extract, if_neg Bool.false_ne_true,
    Option.some.injEq] at h
  subst h
  refine ⟨rfl, ?_⟩
  simp only [NodeBipartite.buildObs, coo_matrix.nnz, List.length_map]
  exact edgeIndices_length m.prob

/-- Witness for claim C3 at the concrete model. -/
theorem node_bipartite_shape_nnz_witness :
    (NodeBipartite.init.extract exModel false).1
        = some (NodeBipartite.buildObs exModel)
    ∧ ((NodeBipartite.buildObs exModel).edge_features.shape
          = (exModel.prob.num_constraints, exModel.prob.num_variables)
      ∧ (NodeBipartite.buildObs exModel).edge_features.nnz
          = numNonzeroCoeffs exModel.prob) :=
  ⟨rfl, node_bipartite_shape_nnz NodeBipartite.init exModel _ rfl⟩

/-- Claim C4: in a NodeBipartite observation, an edge between constraint
i and variable j exists exactly when the coefficient of variable j in
constraint i is non-zero, and the stored edge values are exactly the
coefficients of the listed edges, in order. -/
theorem node_bipartite_edge_iff_coeff (sB : NodeBipartite) (m : ScipModel)
    (obs : NodeBipartiteObs) (h : (sB.extract m false).1 = some obs) :
    (∀ i j, (i, j) ∈ obs.edge_features.indices ↔
      i < m.prob.num_constraints ∧ j < m.prob.num_variables
        ∧ m.prob.coeff i j ≠ 0)
    ∧ obs.edge_features.values
        = obs.edge_features.indices.map fun e => m.prob.coeff e.1 e.2 := by
  simp only [NodeBipartite.extract, if_neg Bool.false_ne_true,
    Option.some.injEq] at h
  subst h
  refine ⟨?_, rfl⟩
  intro i j
  simp only [NodeBipartite.buildObs, edgeIndices, List.mem_flatMap,
    List.mem_filterMap, List.mem_range]
  constructor
  · rintro ⟨a, ha, b, hb, hab⟩
    by_cases hc : m.prob.coeff a b ≠ 0
    · rw [if_pos hc] at hab
      obtain ⟨rfl, rfl⟩ := Prod.mk.injEq .. ▸ Option.some.inj hab
      exact ⟨ha, hb, hc⟩
    · rw [if_neg hc] at hab
      exact absurd hab (Option.noConfusion)
  · rintro ⟨hi, hj, hc⟩
    exact ⟨i, hi, j, hj, by rw [if_pos hc]⟩

/-- Witness for claim C4 at the concrete model. -/
theorem node_bipartite_edge_iff_coeff_witness :
    (NodeBipartite.init.extract exModel false).1
        = some (NodeBipartite.buildObs exModel)
    ∧ ((0, 1) ∈ (NodeBipartite.buildObs exModel).edge_features.indices ↔
        0 < exModel.prob.num_constraints ∧ 1 < exModel.prob.num_variables
          ∧ exModel.prob.coeff 0 1 ≠ 0) :=
  ⟨rfl,
    (node_bipartite_edge_iff_coeff NodeBipartite.init exModel
      (NodeBipartite.buildObs exModel) rfl).1 0 1⟩

/-- Claim C5: the static feature columns of the Khalil2016 observation
are computed and cached by the reset hook; each extract call of the
episode returns, for every candidate, the cached static features of the
reset model followed by the dynamic features of the current model, so
the static columns are identical across extract calls and only the
dynamic columns may differ. -/
theorem khalil_static_cached (s0 : Khalil2016) (m0 m1 m2 : ScipModel) (j : Nat) :
    ((s0.before_reset m0).extract m1 false).1
      = some ((khalilCandidates m1).map fun v =>
          khalilStatic m0.prob v ++ khalilDynamic m1 v)
    ∧ (khalilStatic m0.prob j ++ khalilDynamic m1 j).take khalilNumStatic
        = (khalilStatic m0.prob j ++ khalilDynamic m2 j).take khalilNumStatic := by
  refine ⟨rfl, ?_⟩
  have h1 : (khalilStatic m0.prob j).length = khalilNumStatic := rfl
  rw [List.take_left' h1, List.take_left' h1]

/-- Claim C6: for the Nothing, StrongBranchingScores and Pseudocosts
extractors, after the reset hook, two consecutive extract calls on the
same model with no intervening solver state change return identical
observations. -/
theorem extract_twice_identical (sN : Nothing) (sS : StrongBranchingScores)
    (sP : Pseudocosts) (m0 m : ScipModel) :
    ((((sN.before_reset m0).extract m false).2).extract m false).1
        = ((sN.before_reset m0).extract m false).1
    ∧ ((((sS.before_reset m0).extract m false).2).extract m false).1
        = ((sS.before_reset m0).extract m false).1
    ∧ ((((sP.before_reset m0).extract m false).2).extract m false).1
        = ((sP.before_reset m0).extract m false).1 :=
  ⟨rfl, rfl, rfl⟩

/-- Claim C7: the reset hooks of StrongBranchingScores and Pseudocosts
are no-ops: they leave the extractor state unchanged, and every
subsequent extract call yields the same result as without them. -/
theorem before_reset_noop (sS : StrongBranchingScores) (sP : Pseudocosts)
    (m m2 : ScipModel) (done : Bool) :
    sS.before_reset m = sS
    ∧ sP.before_reset m = sP
    ∧ (sS.before_reset m).extract m2 done = sS.extract m2 done
    ∧ (sP.before_reset m).extract m2 done = sP.extract m2 done :=
  ⟨rfl, rfl, rfl, rfl⟩

/-- Claim C8: both operations of the Nothing extractor are no-ops; for
every model handle and every value of done, extraction returns the
absent observation with the state unchanged, and it is total (never
fails). -/
theorem nothing_noop (s : Nothing) (m0 m : ScipModel) (done : Bool) :
    s.before_reset m0 = s ∧ s.extract m done = (none, s) :=
  ⟨rfl, rfl⟩

/-- Claim C9: the StrongBranchingScores constructor takes exactly one
boolean flag selecting the candidate universe, pseudo candidates when
true and LP candidates when false, and the flag defaults to true when
omitted. -/
theorem strong_branching_init_flag (b : Bool) (m : ScipModel) :
    (StrongBranchingScores.init none).pseudo_candidates = true
    ∧ (StrongBranchingScores.init (some b)).pseudo_candidates = b
    ∧ (StrongBranchingScores.init (some true)).candidates m
        = m.dyn.pseudo_candidates
    ∧ (StrongBranchingScores.init (some false)).candidates m
        = m.dyn.lp_candidates :=
  ⟨rfl, rfl, rfl, rfl⟩

end Ecole
